import Mathlib

/-!
Shallow embedding of the go-env library (package goenv): the type-directed
string parser `DefaultParser.ParseType` / `DefaultParser.Unmarshal`
(envparser sources) and the struct-tag-driven recursive unmarshaller
`DefaultEnvMarshaler` (env.go), together with models of the Go standard
library routines they call (strconv.ParseUint / ParseInt / ParseBool /
ParseFloat, strings.TrimSpace / Split / ToLower, time.ParseDuration) and
of the relevant reflect-package behaviour (kinds, names, settability,
panics of reflect.MakeSlice and reflect.Value.Set).

Machine integers are modelled as Nat / Int with explicit range checks
against the destination width, exactly as the code performs them.
Floating-point values are modelled syntactically: strconv.ParseFloat is
embedded as its acceptance grammar with the exact decimal value kept as a
rational; IEEE rounding is not modelled (no claim depends on float values,
only on which strings are accepted).

Go panics (reflect.MakeSlice on a non-slice type, reflect.Value.Set on an
unaddressable value or with mismatched types, method call through a nil
interface) are modelled as a distinguished `Failure.panicked` outcome,
separate from returned errors.
-/

namespace GoEnv

/-- Integer bit widths of the Go integer kinds. `wN` is the native
`int`/`uint` width, 64 bits on the platforms the library targets. -/
inductive IntW where
  | w8 | w16 | w32 | w64 | wN
deriving DecidableEq, Repr

def IntW.bits : IntW → Nat
  | .w8 => 8
  | .w16 => 16
  | .w32 => 32
  | .w64 => 64
  | .wN => 64

/-- reflect.Kind, restricted to the kinds the library can meet. -/
inductive GoKind where
  | kbool
  | kint (w : IntW)
  | kuint (w : IntW)
  | kfloat32
  | kfloat64
  | kstring
  | kptr
  | kslice
  | karray
  | kstruct
deriving DecidableEq, Repr

mutual
/-- A Go type as seen through the reflect package: primitive kinds,
pointers, slices, arrays, structs with tagged fields, and named
(defined) types wrapping an underlying type. -/
inductive GoType where
  | bool
  | int (w : IntW)
  | uint (w : IntW)
  | float32
  | float64
  | string
  | ptr (elem : GoType)
  | slice (elem : GoType)
  | array (n : Nat) (elem : GoType)
  | strukt (fields : GoFields)
  | named (name : String) (u : GoType)
deriving DecidableEq, Repr

/-- The ordered field list of a struct type: each field carries its name,
its `env` tag (empty string = tag absent), and its type. -/
inductive GoFields where
  | nil
  | cons (fieldName : String) (envTag : String) (t : GoType) (rest : GoFields)
deriving DecidableEq, Repr
end

/-- reflect.Type.Kind: named types have the kind of their underlying type. -/
def GoType.kind : GoType → GoKind
  | .bool => .kbool
  | .int w => .kint w
  | .uint w => .kuint w
  | .float32 => .kfloat32
  | .float64 => .kfloat64
  | .string => .kstring
  | .ptr _ => .kptr
  | .slice _ => .kslice
  | .array _ _ => .karray
  | .strukt _ => .kstruct
  | .named _ u => u.kind

/-- reflect.Type.Name: predeclared primitive types carry their spelling,
composite unnamed types have the empty name, defined types their own. -/
def GoType.name : GoType → String
  | .bool => "bool"
  | .int .w8 => "int8"
  | .int .w16 => "int16"
  | .int .w32 => "int32"
  | .int .w64 => "int64"
  | .int .wN => "int"
  | .uint .w8 => "uint8"
  | .uint .w16 => "uint16"
  | .uint .w32 => "uint32"
  | .uint .w64 => "uint64"
  | .uint .wN => "uint"
  | .float32 => "float32"
  | .float64 => "float64"
  | .string => "string"
  | .ptr _ => ""
  | .slice _ => ""
  | .array _ _ => ""
  | .strukt _ => ""
  | .named n _ => n

/-- reflect.Type.Elem for pointer, slice and array types (resolving
through a defined type, as reflect does). The fallback value is never
reached on the kinds the code calls Elem on. -/
def GoType.elemOf : GoType → GoType
  | .ptr e => e
  | .slice e => e
  | .array _ e => e
  | .named _ u => u.elemOf
  | _ => .bool

/-- The field list of a struct type (reflect.Type.Field over NumField),
resolving through a defined type. -/
def GoType.fieldsOf : GoType → GoFields
  | .strukt fs => fs
  | .named _ u => u.fieldsOf
  | _ => .nil

/-- reflect.Kind.String, for kinds appearing in error messages. -/
def GoKind.str : GoKind → String
  | .kbool => "bool"
  | .kint .w8 => "int8"
  | .kint .w16 => "int16"
  | .kint .w32 => "int32"
  | .kint .w64 => "int64"
  | .kint .wN => "int"
  | .kuint .w8 => "uint8"
  | .kuint .w16 => "uint16"
  | .kuint .w32 => "uint32"
  | .kuint .w64 => "uint64"
  | .kuint .wN => "uint"
  | .kfloat32 => "float32"
  | .kfloat64 => "float64"
  | .kstring => "string"
  | .kptr => "ptr"
  | .kslice => "slice"
  | .karray => "array"
  | .kstruct => "struct"

/-- The model of `time.Duration`: a defined type over int64. -/
def GoDuration : GoType := .named "Duration" (.int .w64)

/-- A parsed float, kept exactly: the literal value as an integer
numerator over a positive denominator (IEEE rounding not modelled), or
an infinity / NaN special. -/
inductive GoFloat where
  | finite (num : Int) (den : Nat)
  | inf (neg : Bool)
  | nan
deriving DecidableEq, Repr

mutual
/-- A Go value of one of the types the library handles. A nil pointer is
`ptrNil`. Duration values are their int64 nanosecond count. -/
inductive GoValue where
  | boolV (b : Bool)
  | intV (w : IntW) (n : Int)
  | uintV (w : IntW) (n : Nat)
  | floatV (is32 : Bool) (f : GoFloat)
  | strV (s : String)
  | ptrNil
  | ptrV (v : GoValue)
  | sliceV (vs : GoValues)
  | arrayV (vs : GoValues)
  | structV (vs : GoValues)
deriving DecidableEq, Repr

/-- A sequence of Go values (slice / array elements, struct fields). -/
inductive GoValues where
  | nil
  | cons (v : GoValue) (rest : GoValues)
deriving DecidableEq, Repr
end

/-- Prepend-all: turn a Lean list of values into a `GoValues`. -/
def GoValues.ofList : List GoValue → GoValues
  | [] => .nil
  | v :: rest => .cons v (GoValues.ofList rest)

/-- n copies of a value, for array zero values. -/
def GoValues.replicate : Nat → GoValue → GoValues
  | 0, _ => .nil
  | n + 1, v => .cons v (GoValues.replicate n v)

mutual
/-- The zero value of a type, as produced by reflect.New(t).Elem(). -/
def GoType.zeroValue : GoType → GoValue
  | .bool => .boolV false
  | .int w => .intV w 0
  | .uint w => .uintV w 0
  | .float32 => .floatV true (.finite 0 1)
  | .float64 => .floatV false (.finite 0 1)
  | .string => .strV ""
  | .ptr _ => .ptrNil
  | .slice _ => .sliceV .nil
  | .array n e => .arrayV (GoValues.replicate n e.zeroValue)
  | .strukt fs => .structV fs.zeroValues
  | .named _ u => u.zeroValue

/-- Zero values of a struct's fields, in declaration order. -/
def GoFields.zeroValues : GoFields → GoValues
  | .nil => .nil
  | .cons _ _ t rest => .cons t.zeroValue rest.zeroValues
end

/-- An error value: either a leaf built by errors.New / errors.Errorf
(carrying its formatted message) or an errors.Wrapf wrapper adding a
context message around a cause. -/
inductive GoErr where
  | errorf (msg : String)
  | wrap (cause : GoErr) (msg : String)
deriving DecidableEq, Repr

/-- How a call can fail: by returning a non-nil error value, or by a
runtime panic (which in Go propagates past all error returns). -/
inductive Failure where
  | goErr (e : GoErr)
  | panicked (msg : String)
deriving DecidableEq, Repr

/-- Result of a fallible operation. -/
abbrev Res (α : Type) := Except Failure α

instance {ε α : Type} [DecidableEq ε] [DecidableEq α] : DecidableEq (Except ε α)
  | .ok a, .ok b => if h : a = b then .isTrue (by rw [h]) else .isFalse (by simp [h])
  | .ok _, .error _ => .isFalse (by simp)
  | .error _, .ok _ => .isFalse (by simp)
  | .error a, .error b => if h : a = b then .isTrue (by rw [h]) else .isFalse (by simp [h])

/-! ## Models of the Go standard library helpers the code calls -/

/-- unicode.IsSpace, as used by strings.TrimSpace. -/
def goIsSpace (c : Char) : Bool :=
  c = ' ' ∨ c = '\t' ∨ c = '\n' ∨ c = '\x0b' ∨ c = '\x0c' ∨ c = '\r' ∨
  c = '\x85' ∨ c = '\xa0' ∨ c = '\u1680' ∨
  ('\u2000' ≤ c ∧ c ≤ '\u200a') ∨
  c = '\u2028' ∨ c = '\u2029' ∨ c = '\u202f' ∨ c = '\u205f' ∨ c = '\u3000'

/-- strings.TrimSpace on a character list. -/
def goTrim (cs : List Char) : List Char :=
  ((cs.dropWhile goIsSpace).reverse.dropWhile goIsSpace).reverse

/-- strings.TrimSpace. -/
def goTrimSpace (s : String) : String := ⟨goTrim s.data⟩

/-- strings.ToLower (ASCII part; the code only meets ASCII input). -/
def goToLower (s : String) : String := ⟨s.data.map Char.toLower⟩

/-- strings.Split with a one-character separator: "a,,b" gives three
groups, the empty list gives one empty group. -/
def splitOnChar (sep : Char) : List Char → List (List Char)
  | [] => [[]]
  | c :: rest =>
    if c = sep then [] :: splitOnChar sep rest
    else match splitOnChar sep rest with
      | g :: gs => (c :: g) :: gs
      | [] => [[c]]

/-- Numeric value of a run of decimal digits. -/
def digitsToNat (cs : List Char) : Nat :=
  cs.foldl (fun a c => a * 10 + (c.toNat - 48)) 0

/-- Numeric value of a run of hexadecimal digits. -/
def hexToNat (cs : List Char) : Nat :=
  cs.foldl (fun a c =>
    a * 16 + (if c.isDigit then c.toNat - 48
              else if 'a' ≤ c ∧ c ≤ 'f' then c.toNat - 87
              else c.toNat - 55)) 0

/-- strconv.ParseUint(s, 10, 64): a non-empty run of decimal digits whose
value fits in 64 bits; no sign, no underscores (base is fixed at 10). -/
def goParseUint (cs : List Char) : Option Nat :=
  match cs with
  | [] => none
  | _ =>
    if cs.all (·.isDigit) then
      let v := digitsToNat cs
      if v < 2 ^ 64 then some v else none
    else none

/-- strconv.ParseInt(s, 10, 64): an optional sign then decimal digits,
value within the signed 64-bit range. -/
def goParseInt (cs : List Char) : Option Int :=
  match cs with
  | [] => none
  | c :: rest =>
    let neg : Bool := c = '-'
    let digits := if c = '+' ∨ c = '-' then rest else cs
    match digits with
    | [] => none
    | _ =>
      if digits.all (·.isDigit) then
        let v : Int := digitsToNat digits
        let i : Int := if neg then -v else v
        if -(2 ^ 63) ≤ i ∧ i ≤ 2 ^ 63 - 1 then some i else none
      else none

/-- strconv.ParseBool: the exact literal set Go accepts. The code hands
it an already-lowercased string, but the model keeps the full set. -/
def goParseBool (s : String) : Option Bool :=
  if s = "1" ∨ s = "t" ∨ s = "T" ∨ s = "TRUE" ∨ s = "true" ∨ s = "True" then some true
  else if s = "0" ∨ s = "f" ∨ s = "F" ∨ s = "FALSE" ∨ s = "false" ∨ s = "False" then some false
  else none

/-- Strip one leading sign character; the flag is whether it was minus. -/
def stripSign : List Char → Bool × List Char
  | '+' :: rest => (false, rest)
  | '-' :: rest => (true, rest)
  | cs => (false, cs)

/-- A run of decimal digits possibly containing underscores between
digits, as in Go numeric literals: returns the digits (underscores
removed) and the unconsumed rest. An underscore not followed by a digit
is not consumed, so "1__2" and "1_" leave a rejected remainder. -/
def takeDigitsU : List Char → List Char × List Char
  | [] => ([], [])
  | c :: rest =>
    if c.isDigit then
      match takeDigitsU rest with
      | (ds, r) => (c :: ds, r)
    else if c = '_' then
      match rest with
      | d :: _ =>
        if d.isDigit then takeDigitsU rest
        else ([], c :: rest)
      | [] => ([], [c])
    else ([], c :: rest)

/-- Hexadecimal digit test. -/
def isHexDig (c : Char) : Bool :=
  c.isDigit ∨ ('a' ≤ c ∧ c ≤ 'f') ∨ ('A' ≤ c ∧ c ≤ 'F')

/-- Hexadecimal-digit analogue of `takeDigitsU`. -/
def takeHexU : List Char → List Char × List Char
  | [] => ([], [])
  | c :: rest =>
    if isHexDig c then
      match takeHexU rest with
      | (ds, r) => (c :: ds, r)
    else if c = '_' then
      match rest with
      | d :: _ =>
        if isHexDig d then takeHexU rest
        else ([], c :: rest)
      | [] => ([], [c])
    else ([], c :: rest)

/-- Largest finite float64, as an exact natural number. -/
def maxFloat64N : Nat := (2 ^ 53 - 1) * 2 ^ 971

/-- Largest finite float32, as an exact natural number. -/
def maxFloat32N : Nat := (2 ^ 24 - 1) * 2 ^ 104

/-- The decimal branch of strconv.ParseFloat: mantissa digits with an
optional fraction, then an optional decimal exponent. -/
def parseDecFloat (neg : Bool) (cs : List Char) : Option GoFloat :=
  let startsDigit : List Char → Bool := fun l => match l with
    | d :: _ => d.isDigit
    | [] => false
  let (ip, r1) := if startsDigit cs then takeDigitsU cs else ([], cs)
  let (fp, r2) : Option (List Char) × List Char := match r1 with
    | '.' :: rest =>
      if startsDigit rest then
        match takeDigitsU rest with
        | (d, r) => (some d, r)
      else (some [], rest)
    | _ => (none, r1)
  if ip = [] ∧ fp.getD [] = [] then none
  else
    let fd := fp.getD []
    let mkFin : Int → Option GoFloat := fun e =>
      let m : Nat := digitsToNat ip * 10 ^ fd.length + digitsToNat fd
      let eAdj : Int := e - fd.length
      let num : Nat := if 0 ≤ eAdj then m * 10 ^ eAdj.toNat else m
      let den : Nat := if 0 ≤ eAdj then 1 else 10 ^ (-eAdj).toNat
      if maxFloat64N * den < num then none
      else some (.finite (if neg then -(num : Int) else (num : Int)) den)
    match r2 with
    | [] => mkFin 0
    | e :: rest =>
      if e = 'e' ∨ e = 'E' then
        match stripSign rest with
        | (esign, rest2) =>
          if startsDigit rest2 then
            match takeDigitsU rest2 with
            | (ed, r3) =>
              if r3 = [] then
                mkFin (if esign then -(digitsToNat ed : Int) else (digitsToNat ed : Int))
              else none
          else none
      else none

/-- The hexadecimal branch of strconv.ParseFloat (after "0x"): hex
mantissa with optional fraction and a mandatory binary exponent. -/
def parseHexFloat (neg : Bool) (cs : List Char) : Option GoFloat :=
  let startsHexOrSep : List Char → Bool := fun l => match l with
    | d :: _ => isHexDig d ∨ d = '_'
    | [] => false
  let (ip, r1) := if startsHexOrSep cs then takeHexU cs else ([], cs)
  let (fp, r2) : Option (List Char) × List Char := match r1 with
    | '.' :: rest =>
      match takeHexU rest with
      | (d, r) => (some d, r)
    | _ => (none, r1)
  if ip = [] ∧ fp.getD [] = [] then none
  else
    let fd := fp.getD []
    match r2 with
    | p :: rest =>
      if p = 'p' ∨ p = 'P' then
        match stripSign rest with
        | (esign, rest2) =>
          match rest2 with
          | d :: _ =>
            if d.isDigit then
              match takeDigitsU rest2 with
              | (ed, r3) =>
                if r3 = [] then
                  let e : Int := if esign then -(digitsToNat ed : Int) else (digitsToNat ed : Int)
                  let m : Nat := hexToNat ip * 16 ^ fd.length + hexToNat fd
                  let num : Nat := if 0 ≤ e then m * 2 ^ e.toNat else m
                  let den : Nat := 16 ^ fd.length * (if 0 ≤ e then 1 else 2 ^ (-e).toNat)
                  if maxFloat64N * den < num then none
                  else some (.finite (if neg then -(num : Int) else (num : Int)) den)
                else none
            else none
          | [] => none
      else none
    | [] => none

/-- strconv.ParseFloat(s, 64): sign, the case-insensitive specials inf /
infinity / nan, and otherwise a decimal or hexadecimal Go float literal.
A finite result beyond the float64 range is a range error (`none`). -/
def goParseFloat (cs0 : List Char) : Option GoFloat :=
  match cs0 with
  | [] => none
  | _ =>
    match stripSign cs0 with
    | (neg, cs) =>
      let low := cs.map Char.toLower
      if low = "inf".data ∨ low = "infinity".data then some (.inf neg)
      else if low = "nan".data then some .nan
      else
        match cs with
        | z :: x :: rest =>
          if z = '0' ∧ (x = 'x' ∨ x = 'X') then parseHexFloat neg rest
          else parseDecFloat neg cs
        | _ => parseDecFloat neg cs

/-- Nanosecond multiplier of a time.ParseDuration unit token. -/
def durationUnit (u : String) : Option Nat :=
  if u = "ns" then some 1
  else if u = "us" ∨ u = "\u00b5s" ∨ u = "\u03bcs" then some 1000
  else if u = "ms" then some 1000000
  else if u = "s" then some 1000000000
  else if u = "m" then some 60000000000
  else if u = "h" then some 3600000000000
  else none

/-- One pass of time.ParseDuration's component loop: each component is
digits, an optional fraction, and a unit token; fuel bounds the number of
components (each consumes at least one character). -/
def durLoop : Nat → List Char → Nat → Option Nat
  | 0, _, _ => none
  | _ + 1, [], acc => some acc
  | fuel + 1, cs, acc =>
    match cs with
    | c :: _ =>
      if ¬(c.isDigit ∨ c = '.') then none
      else
        let (ip, r1) := cs.span (·.isDigit)
        let (fp, r2) : Option (List Char) × List Char := match r1 with
          | '.' :: rest =>
            match rest.span (·.isDigit) with
            | (d, r) => (some d, r)
          | _ => (none, r1)
        if ip = [] ∧ fp.getD [] = [] then none
        else
          let (unitCs, r3) := r2.span (fun c2 => ¬(c2.isDigit ∨ c2 = '.'))
          match durationUnit ⟨unitCs⟩ with
          | none => none
          | some u =>
            let fd := fp.getD []
            let v := digitsToNat ip * u + digitsToNat fd * u / 10 ^ fd.length
            durLoop fuel r3 (acc + v)
    | [] => some acc

/-- time.ParseDuration: optional sign, the special "0", then one or more
number-unit components summed in nanoseconds; the fraction contribution
is truncated as Go truncates it. -/
def goParseDuration (cs0 : List Char) : Option Int :=
  match stripSign cs0 with
  | (neg, cs) =>
    if cs = ['0'] then some 0
    else match cs with
    | [] => none
    | _ =>
      match durLoop (cs.length + 1) cs 0 with
      | none => none
      | some total =>
        if (total : Int) ≤ 2 ^ 63 - 1 then
          some (if neg then -(total : Int) else (total : Int))
        else none

/-! ## DefaultParser.ParseType -/

/-- The bool branch of ParseType: strconv.ParseBool on the lowercased
input, wrapping a parse failure. -/
def parseBoolCase (str : String) : Res GoValue :=
  match goParseBool (goToLower str) with
  | none => .error (.goErr (.wrap
      (.errorf ("strconv.ParseBool: parsing \x22" ++ goToLower str ++ "\x22: invalid syntax"))
      ("Cannot convert " ++ str ++ " to a boolean value.")))
  | some b => .ok (.boolV b)

/-- The unsigned branch of ParseType: strconv.ParseUint at 64 bits, then
reflect.Value.OverflowUint against the destination width. -/
def parseUintCase (str : String) (tName : String) (w : IntW) : Res GoValue :=
  match goParseUint str.data with
  | none => .error (.goErr (.wrap
      (.errorf ("strconv.ParseUint: parsing \x22" ++ str ++ "\x22: invalid syntax"))
      ("Cannot convert " ++ str ++ " to " ++ tName)))
  | some n =>
    if 2 ^ w.bits - 1 < n then
      .error (.goErr (.errorf ("The value " ++ toString n ++ " overflows type " ++ tName)))
    else .ok (.uintV w n)

/-- The signed branch of ParseType: strconv.ParseInt at 64 bits, then
reflect.Value.OverflowInt against the destination width. -/
def parseIntCase (str : String) (tName : String) (w : IntW) : Res GoValue :=
  match goParseInt str.data with
  | none => .error (.goErr (.wrap
      (.errorf ("strconv.ParseInt: parsing \x22" ++ str ++ "\x22: invalid syntax"))
      ("Cannot convert " ++ str ++ " to " ++ tName)))
  | some i =>
    if i < -(2 ^ (w.bits - 1)) ∨ 2 ^ (w.bits - 1) - 1 < i then
      .error (.goErr (.errorf ("The value " ++ toString i ++ " overflows type " ++ tName)))
    else .ok (.intV w i)

/-- reflect.Value.OverflowFloat for a float32 destination (always false
for float64, where ParseFloat has already range-checked). -/
def overflowsFloat32 : GoFloat → Bool
  | .finite num den => maxFloat32N * den < num.natAbs
  | .inf _ => true
  | .nan => false

/-- The float branches of ParseType. The overflow message keeps the
source's integer format verb applied to a float (a cosmetic formatting
slip in the source, reproduced as the verbatim verb). -/
def parseFloatCase (str : String) (tName : String) (is32 : Bool) : Res GoValue :=
  match goParseFloat str.data with
  | none => .error (.goErr (.wrap
      (.errorf ("strconv.ParseFloat: parsing \x22" ++ str ++ "\x22: invalid syntax"))
      ("Cannot convert " ++ str ++ " to " ++ tName)))
  | some f =>
    if is32 ∧ overflowsFloat32 f then
      .error (.goErr (.errorf ("The value %!d(float64) overflows type " ++ tName)))
    else .ok (.floatV is32 f)

/-- The Duration branch of ParseType (taken for any type named
"Duration"): time.ParseDuration, then reflect.Value.Set with a
time.Duration value, which panics unless the target is time.Duration
itself. -/
def parseDurationCase (str : String) (t : GoType) : Res GoValue :=
  match goParseDuration str.data with
  | none => .error (.goErr (.wrap
      (.errorf ("time: invalid duration " ++ str))
      ("Could not parse duration \x22" ++ str ++ "\x22")))
  | some d =>
    if t = GoDuration then .ok (.intV .w64 d)
    else .error (.panicked
      ("reflect.Set: value of type time.Duration is not assignable to type " ++ t.name))

/-- strings.Split(s, ",") as a list of strings. -/
def goSplitComma (s : String) : List String :=
  (splitOnChar ',' s.data).map (fun g => ⟨g⟩)

/-- The element loop of ParseType's sequence branch: trim each element,
parse it with the element parser, and wrap the first failure with the
element's index. -/
def parseElems (p : String → Res GoValue) : List String → Nat → Res (List GoValue)
  | [], _ => .ok []
  | e :: rest, i =>
    match p (goTrimSpace e) with
    | .ok v =>
      match parseElems p rest (i + 1) with
      | .ok vs => .ok (v :: vs)
      | .error f => .error f
    | .error (.goErr er) =>
      .error (.goErr (.wrap er ("Could not marshal element " ++ toString i)))
    | .error pa => .error pa

/-- DefaultParser.ParseType: parse one string against a target type.
Mirrors the source switch: the Duration name check first, then the kind
switch over pointer, string, bool, the unsigned, signed and float kinds,
and array/slice; every other kind is unsupported. reflect.MakeSlice
panics on array kinds before any element is parsed. A defined type takes
the same kind branch as its underlying type, with its own name in
messages. -/
def DefaultParser.ParseType (str : String) : GoType → Res GoValue
  | .named n u =>
    if n = "Duration" then parseDurationCase str (.named n u)
    else
      match u with
      | .ptr e =>
        match DefaultParser.ParseType str e with
        | .ok v => .ok (.ptrV v)
        | .error f => .error f
      | .string => .ok (.strV (goTrimSpace str))
      | .bool => parseBoolCase str
      | .int w => parseIntCase str n w
      | .uint w => parseUintCase str n w
      | .float32 => parseFloatCase str n true
      | .float64 => parseFloatCase str n false
      | .slice e =>
        let elts := if str = "" then [] else goSplitComma str
        match parseElems (fun s2 => DefaultParser.ParseType s2 e) elts 0 with
        | .ok vs => .ok (.sliceV (GoValues.ofList vs))
        | .error f => .error f
      | .array _ _ => .error (.panicked "reflect.MakeSlice of non-slice type")
      | .strukt _ => .error (.goErr (.errorf ("Cannot unmarshal objects of type " ++ n)))
      | .named _ _ => .error (.goErr (.errorf ("Cannot unmarshal objects of type " ++ n)))
  | .ptr e =>
    match DefaultParser.ParseType str e with
    | .ok v => .ok (.ptrV v)
    | .error f => .error f
  | .string => .ok (.strV (goTrimSpace str))
  | .bool => parseBoolCase str
  | .int w => parseIntCase str (GoType.int w).name w
  | .uint w => parseUintCase str (GoType.uint w).name w
  | .float32 => parseFloatCase str "float32" true
  | .float64 => parseFloatCase str "float64" false
  | .slice e =>
    let elts := if str = "" then [] else goSplitComma str
    match parseElems (fun s2 => DefaultParser.ParseType s2 e) elts 0 with
    | .ok vs => .ok (.sliceV (GoValues.ofList vs))
    | .error f => .error f
  | .array _ _ => .error (.panicked "reflect.MakeSlice of non-slice type")
  | .strukt _ => .error (.goErr (.errorf "Cannot unmarshal objects of type "))

/-! ## DefaultEnvMarshaler -/

/-- The EnvReader capability as the marshaler consumes it: LookupEnv as
a partial map from variable names to values (HasKeys is not used by the
unmarshalling traversal). -/
abbrev Env := String → Option String

/-- An UnmarshalEnv method body (pointer receiver): it is handed the
EnvReader and the receiver's current value, and yields the receiver's
new value together with the returned error, if any. -/
abbrev Hook := Env → GoValue → GoValue × Option GoErr

/-- The UnmarshalEnv method set of the program: which defined type names
carry an UnmarshalEnv method (Go methods attach to defined types only). -/
abbrev Methods := List (String × Hook)

/-- The UnmarshalEnv method declared for a defined type name, if any. -/
def lookupHook (m : Methods) (n : String) : Option Hook :=
  (m.find? (fun p => p.1 = n)).map (fun p => p.2)

/-- DefaultEnvMarshaler.implementsUnmarshal: whether reflect.PtrTo(t)
implements EnvUnmarshaler — true exactly when t is a defined type with
an UnmarshalEnv method. -/
def DefaultEnvMarshaler.implementsUnmarshal (m : Methods) (t : GoType) : Bool :=
  if t.name = "" then false else (lookupHook m t.name).isSome

/-- DefaultEnvMarshaler.unmarshalType: look the composed key up in the
environment (a missing key is a hard error naming the key), then parse
the value against the field type, wrapping any parse error with the
value, type name and key. -/
def DefaultEnvMarshaler.unmarshalType (env : Env) (fieldType : GoType)
    (fieldEnvTag : String) : Res GoValue :=
  match env fieldEnvTag with
  | none => .error (.goErr (.errorf
      ("cannot retrieve any value from environment var " ++ fieldEnvTag)))
  | some envVal =>
    match DefaultParser.ParseType envVal fieldType with
    | .ok v => .ok v
    | .error (.goErr e) => .error (.goErr (.wrap e
        ("cannot unmarshal " ++ envVal ++ " to type " ++ fieldType.name ++
         " (Env: " ++ fieldEnvTag ++ ")")))
    | .error pa => .error pa

/-- DefaultEnvMarshaler.unmarshalNonPtr: a type named "Time" is routed
to the scalar path; a struct kind recurses into struct unmarshalling
(the recursion is the `recu` argument, instantiated by
`unmarshalStructF` with itself); everything else takes the scalar path.
-/
def DefaultEnvMarshaler.unmarshalNonPtr (env : Env)
    (recu : GoType → String → Res GoValue) (fieldType : GoType)
    (fieldEnvTag : String) : Res GoValue :=
  if fieldType.name = "Time" then
    DefaultEnvMarshaler.unmarshalType env fieldType fieldEnvTag
  else if fieldType.kind = .kstruct then
    match recu fieldType fieldEnvTag with
    | .ok v => .ok v
    | .error (.goErr e) => .error (.goErr (.wrap e
        ("cannot unmarshal " ++ fieldEnvTag ++ " to type " ++ fieldType.name)))
    | .error pa => .error pa
  else DefaultEnvMarshaler.unmarshalType env fieldType fieldEnvTag

/-- DefaultEnvMarshaler.unmarshalField: a pointer field is unwrapped one
level and the result re-addressed; failures are wrapped with the field
name. -/
def DefaultEnvMarshaler.unmarshalField (env : Env)
    (recu : GoType → String → Res GoValue) (fieldName : String)
    (structFieldType : GoType) (fieldEnvTag : String) : Res GoValue :=
  if structFieldType.kind = .kptr then
    match DefaultEnvMarshaler.unmarshalNonPtr env recu structFieldType.elemOf fieldEnvTag with
    | .ok v => .ok (.ptrV v)
    | .error (.goErr e) => .error (.goErr (.wrap e
        ("error unmarshaling field " ++ fieldName)))
    | .error pa => .error pa
  else
    match DefaultEnvMarshaler.unmarshalNonPtr env recu structFieldType fieldEnvTag with
    | .ok v => .ok v
    | .error (.goErr e) => .error (.goErr (.wrap e
        ("error unmarshaling field " ++ fieldName)))
    | .error pa => .error pa

/-- The field loop of DefaultEnvMarshaler.unmarshalStruct: fields are
visited in declaration order; an empty tag skips the field (leaving its
zero value); otherwise the key is the prefix concatenated with the tag,
and the first failing field aborts the whole struct. -/
def DefaultEnvMarshaler.unmarshalFieldsWith (env : Env)
    (recu : GoType → String → Res GoValue) :
    GoFields → String → Res GoValues
  | .nil, _ => .ok .nil
  | .cons fieldName tag ft rest, envPrefix =>
    if tag = "" then
      match DefaultEnvMarshaler.unmarshalFieldsWith env recu rest envPrefix with
      | .ok vs => .ok (.cons ft.zeroValue vs)
      | .error f => .error f
    else
      match DefaultEnvMarshaler.unmarshalField env recu fieldName ft (envPrefix ++ tag) with
      | .ok v =>
        match DefaultEnvMarshaler.unmarshalFieldsWith env recu rest envPrefix with
        | .ok vs => .ok (.cons v vs)
        | .error f => .error f
      | .error f => .error f

mutual
/-- Structural size of a type, used only to pre-compute recursion fuel:
each struct-recursion step moves to a field type of strictly smaller
size, so `t.sizeT` bounds the recursion depth and the zero-fuel branch
of `unmarshalStructF` is unreachable from the wrapper. -/
def GoType.sizeT : GoType → Nat
  | .ptr e => e.sizeT + 1
  | .slice e => e.sizeT + 1
  | .array _ e => e.sizeT + 1
  | .strukt fs => fs.sizeFs + 1
  | .named _ u => u.sizeT + 1
  | _ => 1

/-- Combined size of a field list. -/
def GoFields.sizeFs : GoFields → Nat
  | .nil => 0
  | .cons _ _ t rest => t.sizeT + rest.sizeFs + 1
end

/-- DefaultEnvMarshaler.unmarshalStruct, with the recursion made
explicit through fuel: construct a zero value of the struct type, visit
its fields, and recurse into nested structs with the composed key as the
new prefix. A non-struct type is rejected with its kind in the message.
-/
def DefaultEnvMarshaler.unmarshalStructF : Nat → Env → GoType → String → Res GoValue
  | 0, _, _, _ => .error (.panicked "goroutine stack exceeds limit")
  | f + 1, env, t, envPrefix =>
    if t.kind = .kstruct then
      match DefaultEnvMarshaler.unmarshalFieldsWith env
          (DefaultEnvMarshaler.unmarshalStructF f env) t.fieldsOf envPrefix with
      | .ok vs => .ok (.structV vs)
      | .error fl => .error fl
    else .error (.goErr (.errorf ("cannot unmarshal non-struct type " ++ t.kind.str)))

/-- DefaultEnvMarshaler.unmarshalStruct. -/
def DefaultEnvMarshaler.unmarshalStruct (env : Env) (t : GoType)
    (envPrefix : String) : Res GoValue :=
  DefaultEnvMarshaler.unmarshalStructF t.sizeT env t envPrefix

/-- An interface value handed to an Unmarshal entry point: its dynamic
type, and the value it denotes (for a pointer type, the pointee — the
caller's object). -/
structure GoItf where
  typ : GoType
  val : GoValue
deriving Repr

/-- How an Unmarshal entry point returns: normally, with a non-nil
error, or by panicking. -/
inductive Outcome where
  | ok
  | err (e : GoErr)
  | panicked (msg : String)
deriving DecidableEq, Repr

/-- Observable result of an Unmarshal entry point: the caller-visible
value of the passed object after the call, and how the call returned. -/
structure UOut where
  state : GoValue
  outcome : Outcome
deriving DecidableEq, Repr

/-- DefaultEnvMarshaler.Unmarshal: dereference a pointer argument; if
the resolved type's pointer type implements EnvUnmarshaler, delegate to
the UnmarshalEnv method through a type assertion on the argument (which
for a non-pointer argument yields a nil interface, so the method call
panics); otherwise require a struct kind, unmarshal it, and on success
assign the built value through the argument (reflect.Value.Set, which
panics if the argument was not an addressable pointee). -/
def DefaultEnvMarshaler.Unmarshal (m : Methods) (env : Env) (i : GoItf) : UOut :=
  let t := if i.typ.kind = .kptr then i.typ.elemOf else i.typ
  match (if DefaultEnvMarshaler.implementsUnmarshal m t then lookupHook m t.name else none) with
  | some hk =>
    match i.typ with
    | .ptr _ =>
      match hk env i.val with
      | (s2, none) => ⟨s2, .ok⟩
      | (s2, some e) => ⟨s2, .err e⟩
    | _ => ⟨i.val, .panicked "runtime error: invalid memory address or nil pointer dereference"⟩
  | none =>
    if t.kind = .kstruct then
      match DefaultEnvMarshaler.unmarshalStruct env t "" with
      | .ok v =>
        if i.typ.kind = .kptr then ⟨v, .ok⟩
        else ⟨i.val, .panicked "reflect: reflect.Value.Set using unaddressable value"⟩
      | .error (.goErr e) => ⟨i.val, .err e⟩
      | .error (.panicked msg) => ⟨i.val, .panicked msg⟩
    else ⟨i.val, .err (.errorf "cannot unmarshal non-struct, non-EnvMarshaler objects")⟩

/-- DefaultParser.Unmarshal: dereference a pointer argument, refuse an
unsettable target with an error naming the type (the settable targets
are exactly the pointees of pointer arguments), then parse and assign.
-/
def DefaultParser.Unmarshal (val : String) (i : GoItf) : UOut :=
  let t := if i.typ.kind = .kptr then i.typ.elemOf else i.typ
  if i.typ.kind = .kptr then
    match DefaultParser.ParseType val t with
    | .ok v => ⟨v, .ok⟩
    | .error (.goErr e) => ⟨i.val, .err e⟩
    | .error (.panicked msg) => ⟨i.val, .panicked msg⟩
  else
    ⟨i.val, .err (.errorf
      (if t.name = "" then "Cannot serialize into an unsettable type."
       else "Cannot serialize into an unsettable " ++ t.name ++ " type."))⟩

/-! ## Concrete fixtures used by witnesses and counterexamples -/

/-- An environment with no variables set. -/
def emptyEnv : Env := fun _ => none

/-- A single-field struct type with a required tag, for witnesses. -/
def tOneField : GoType := .strukt (.cons "X" "X" (.uint .wN) .nil)

/-- Mirror of the test type EnvMarshalerObj1: two tagged fields and an
UnmarshalEnv method that ignores the tags, reads one key itself, and
sets A to 3. -/
def tEnvMarshalerObj1 : GoType := .named "EnvMarshalerObj1" (.strukt
  (.cons "A" "ENV_MARSHALER_OBJ1_A" (.uint .wN)
  (.cons "B" "ENV_MARSHALER_OBJ1_B" .string .nil)))

/-- The UnmarshalEnv method body of EnvMarshalerObj1. -/
def hookObj1 : Hook := fun env o =>
  match env "ENV_MARSHALER_OBJ1_B" with
  | none => (o, some (.errorf "Cannot marshal UnmarshalableEnvObj1: missing UNMARSHALABLE_ENV_OBJ1_B"))
  | some bStr => (.structV (.cons (.uintV .wN 3) (.cons (.strV bStr) .nil)), none)

/-- An environment holding only EnvMarshalerObj1's B key. -/
def envObj1B : Env := fun k => if k = "ENV_MARSHALER_OBJ1_B" then some "a" else none

/-- Mirror of the test type EnvMarshalerObj2: a defined uint type. -/
def tEnvMarshalerObj2 : GoType := .named "EnvMarshalerObj2" (.uint .wN)

/-- The UnmarshalEnv method body of EnvMarshalerObj2: set the receiver
to 1 and succeed. -/
def hookObj2 : Hook := fun _ _ => (.uintV .wN 1, none)

/-- A hook that first overwrites its receiver and then fails: legal
behaviour for an EnvUnmarshaler implementation. -/
def mutatingFailingHook : Hook := fun _ _ =>
  (.uintV .wN 99, some (.errorf "BadCfg could not configure itself"))

/-- A defined uint type carrying `mutatingFailingHook` as its method. -/
def tBadCfg : GoType := .named "BadCfg" (.uint .wN)

/-! ## Claim theorems -/

/-- C8: for unsigned integer targets the overflow check is exact against
the destination width: whenever the 64-bit parse succeeds with value n,
ParseType fails with an overflow error exactly when n exceeds the
largest value of the destination width, and otherwise returns n. -/
theorem C8_uint_overflow_exact (s : String) (w : IntW) (n : Nat)
    (hp : goParseUint s.data = some n) :
    DefaultParser.ParseType s (.uint w) =
      (if 2 ^ w.bits - 1 < n then
        .error (.goErr (.errorf ("The value " ++ toString n ++ " overflows type " ++ (GoType.uint w).name)))
      else .ok (.uintV w n)) := by
  simp [DefaultParser.ParseType, parseUintCase, hp]

/-- C8 witness: parse("255", uint8) = 255 and parse("256", uint8) fails
with the overflow error. -/
theorem C8_witness :
    (goParseUint "255".data = some 255 ∧
      DefaultParser.ParseType "255" (.uint .w8) = .ok (.uintV .w8 255)) ∧
    (goParseUint "256".data = some 256 ∧
      DefaultParser.ParseType "256" (.uint .w8) =
        .error (.goErr (.errorf "The value 256 overflows type uint8"))) :=
  ⟨⟨by decide, (C8_uint_overflow_exact "255" .w8 255 (by decide)).trans (by decide)⟩,
   ⟨by decide, (C8_uint_overflow_exact "256" .w8 256 (by decide)).trans (by decide)⟩⟩

/-- C2: a pointer target whose type carries an UnmarshalEnv method is
delegated entirely to that method: Unmarshal hands it the EnvReader and
the caller's object and returns its result verbatim, for every type
(whatever tagged fields it declares) and every environment. -/
theorem C2_custom_unmarshaler_delegates (m : Methods) (env : Env) (t : GoType)
    (prior : GoValue) (hkf : Hook)
    (hname : t.name ≠ "") (hhook : lookupHook m t.name = some hkf) :
    DefaultEnvMarshaler.Unmarshal m env ⟨.ptr t, prior⟩ =
      ⟨(hkf env prior).1,
        match (hkf env prior).2 with
        | none => .ok
        | some e => .err e⟩ := by
  have hres : (hkf env prior) = ((hkf env prior).1, (hkf env prior).2) := rfl
  simp only [DefaultEnvMarshaler.Unmarshal, DefaultEnvMarshaler.implementsUnmarshal,
    GoType.kind, GoType.elemOf, if_neg hname, hhook, Option.isSome_some, if_true]
  rw [hres]
  cases h2 : (hkf env prior).2 <;> simp

/-- C2 witness: the EnvMarshalerObj1 mirror, whose tagged field keys are
absent from the environment, is populated by its own method. -/
theorem C2_witness :
    tEnvMarshalerObj1.name ≠ "" ∧
    lookupHook [("EnvMarshalerObj1", hookObj1)] tEnvMarshalerObj1.name = some hookObj1 ∧
    DefaultEnvMarshaler.Unmarshal [("EnvMarshalerObj1", hookObj1)] envObj1B
        ⟨.ptr tEnvMarshalerObj1, tEnvMarshalerObj1.zeroValue⟩ =
      ⟨.structV (.cons (.uintV .wN 3) (.cons (.strV "a") .nil)), .ok⟩ :=
  ⟨by decide, rfl,
    (C2_custom_unmarshaler_delegates [("EnvMarshalerObj1", hookObj1)] envObj1B
      tEnvMarshalerObj1 tEnvMarshalerObj1.zeroValue hookObj1 (by decide) rfl).trans
      (by decide)⟩

/-- C9: the EnvUnmarshaler check is made on the pointer type of the
resolved target type and precedes the struct-kind requirement: a
non-struct defined type with an UnmarshalEnv method is delegated to that
method instead of failing with the non-struct error. -/
theorem C9_hook_check_before_struct_check (m : Methods) (env : Env) (t : GoType)
    (prior : GoValue) (hkf : Hook)
    (hkind : t.kind ≠ .kstruct)
    (hname : t.name ≠ "") (hhook : lookupHook m t.name = some hkf) :
    DefaultEnvMarshaler.Unmarshal m env ⟨.ptr t, prior⟩ =
      ⟨(hkf env prior).1,
        match (hkf env prior).2 with
        | none => .ok
        | some e => .err e⟩ := by
  have hres : (hkf env prior) = ((hkf env prior).1, (hkf env prior).2) := rfl
  simp only [DefaultEnvMarshaler.Unmarshal, DefaultEnvMarshaler.implementsUnmarshal,
    GoType.kind, GoType.elemOf, if_neg hname, hhook, Option.isSome_some, if_true]
  rw [hres]
  cases h2 : (hkf env prior).2 <;> simp

/-- C9 witness: the EnvMarshalerObj2 mirror, a defined uint type (kind
uint, not struct) with a method, is delegated and set to 1 rather than
failing with the non-struct error. -/
theorem C9_witness :
    tEnvMarshalerObj2.kind ≠ .kstruct ∧
    DefaultEnvMarshaler.Unmarshal [("EnvMarshalerObj2", hookObj2)] emptyEnv
        ⟨.ptr tEnvMarshalerObj2, .uintV .wN 0⟩ = ⟨.uintV .wN 1, .ok⟩ :=
  ⟨by decide,
    (C9_hook_check_before_struct_check [("EnvMarshalerObj2", hookObj2)] emptyEnv
      tEnvMarshalerObj2 (.uintV .wN 0) hookObj2 (by decide) (by decide) rfl).trans
      (by decide)⟩

/-- C5 counterexample: for an array target type, ParseType does not
return a zero-length sequence on the empty string (nor parse any other
string): reflect.MakeSlice panics on the array kind. -/
theorem C5_counterexample_array_panics :
    DefaultParser.ParseType "" (.array 1 (.int .wN)) =
        .error (.panicked "reflect.MakeSlice of non-slice type") ∧
    DefaultParser.ParseType "5" (.array 1 (.int .wN)) =
        .error (.panicked "reflect.MakeSlice of non-slice type") := by
  exact ⟨by decide, by decide⟩

/-- C5 amended: for slice targets, the empty string parses to the empty
slice for every element type; a non-empty string is split on commas with
each element trimmed and recursively parsed; the first failing element
aborts with an error carrying that element's index and no partial
result. Array targets panic in reflect.MakeSlice instead. -/
theorem C5_amended_slice_semantics :
    (∀ e : GoType, DefaultParser.ParseType "" (.slice e) = .ok (.sliceV .nil)) ∧
    DefaultParser.ParseType "1, -2, 100,3" (.slice (.int .wN)) =
      .ok (.sliceV (.cons (.intV .wN 1) (.cons (.intV .wN (-2))
        (.cons (.intV .wN 100) (.cons (.intV .wN 3) .nil))))) ∧
    DefaultParser.ParseType "1,x,3" (.slice (.int .wN)) =
      .error (.goErr (.wrap (.wrap (.errorf "strconv.ParseInt: parsing \x22x\x22: invalid syntax")
        "Cannot convert x to int") "Could not marshal element 1")) := by
  refine ⟨fun e => ?_, by decide, by decide⟩
  simp [DefaultParser.ParseType, parseElems, GoValues.ofList]

/-- C4 counterexample: DefaultEnvMarshaler.Unmarshal performs no
settability check: handed a non-pointer (unwritable) struct value whose
unmarshalling succeeds, it panics in reflect.Value.Set instead of
returning an Unsettable error. -/
theorem C4_counterexample_env_marshaler_panics :
    DefaultEnvMarshaler.Unmarshal [] emptyEnv ⟨.strukt .nil, .structV .nil⟩ =
      ⟨.structV .nil, .panicked "reflect: reflect.Value.Set using unaddressable value"⟩ := by
  decide

/-- C4 amended: DefaultParser.Unmarshal refuses every unwritable target
with the unsettable error naming the type; DefaultEnvMarshaler.Unmarshal
has no such check — on an unwritable target it panics in
reflect.Value.Set whenever the struct unmarshals successfully. -/
theorem C4_amended_unsettable :
    (∀ (s : String) (i : GoItf), i.typ.kind ≠ .kptr →
      DefaultParser.Unmarshal s i =
        ⟨i.val, .err (.errorf
          (if i.typ.name = "" then "Cannot serialize into an unsettable type."
           else "Cannot serialize into an unsettable " ++ i.typ.name ++ " type."))⟩) ∧
    (∀ (m : Methods) (env : Env) (i : GoItf) (v : GoValue),
      DefaultEnvMarshaler.implementsUnmarshal m i.typ = false →
      i.typ.kind = .kstruct →
      DefaultEnvMarshaler.unmarshalStruct env i.typ "" = .ok v →
      DefaultEnvMarshaler.Unmarshal m env i =
        ⟨i.val, .panicked "reflect: reflect.Value.Set using unaddressable value"⟩) := by
  constructor
  · intro s i h
    simp [DefaultParser.Unmarshal, h]
  · intro m env i v hno hks hok
    have hnp : i.typ.kind ≠ .kptr := by rw [hks]; intro hc; cases hc
    simp [DefaultEnvMarshaler.Unmarshal, hnp, hno, hks, hok]

/-- C4 witness: a struct value target makes DefaultParser.Unmarshal
return the unsettable error, and makes DefaultEnvMarshaler.Unmarshal
panic. -/
theorem C4_witness :
    ((GoItf.mk (.strukt .nil) (.structV .nil)).typ.kind ≠ .kptr ∧
      DefaultParser.Unmarshal "unsettable" ⟨.strukt .nil, .structV .nil⟩ =
        ⟨.structV .nil, .err (.errorf "Cannot serialize into an unsettable type.")⟩) ∧
    DefaultEnvMarshaler.Unmarshal [] emptyEnv ⟨tOneField, tOneField.zeroValue⟩ ≠
      DefaultEnvMarshaler.Unmarshal [] (fun _ => some "3") ⟨tOneField, tOneField.zeroValue⟩ ∧
    DefaultEnvMarshaler.Unmarshal [] (fun _ => some "3") ⟨tOneField, tOneField.zeroValue⟩ =
      ⟨tOneField.zeroValue, .panicked "reflect: reflect.Value.Set using unaddressable value"⟩ :=
  ⟨⟨by decide, (C4_amended_unsettable.1 "unsettable" ⟨.strukt .nil, .structV .nil⟩ (by decide)).trans (by decide)⟩,
   by decide,
   (C4_amended_unsettable.2 [] (fun _ => some "3") ⟨tOneField, tOneField.zeroValue⟩
      (.structV (.cons (.uintV .wN 3) .nil)) (by decide) (by decide) (by decide))⟩

/-- C3 counterexample: a non-pointer struct field whose type is named
"Time" is not recursed into: the unmarshaller looks the composed key up
(failing here with the missing-key error), although recursing into the
same type as a struct would have succeeded. -/
theorem C3_counterexample_time_named_struct :
    DefaultEnvMarshaler.unmarshalStruct emptyEnv
        (.strukt (.cons "A" "K" (.named "Time" (.strukt .nil)) .nil)) "" =
      .error (.goErr (.wrap (.errorf "cannot retrieve any value from environment var K")
        "error unmarshaling field A")) ∧
    DefaultEnvMarshaler.unmarshalStruct emptyEnv (.named "Time" (.strukt .nil)) "K" =
      .ok (.structV .nil) := by
  exact ⟨by decide, by decide⟩

/-- C3 amended: a non-pointer struct-kind field whose type name is not
"Time" is recursed into with the composed key as the new prefix (no key
lookup, no scalar parse); a struct type named "Time" takes the scalar
path instead. Part one states the routing inside unmarshalNonPtr for an
arbitrary recursion continuation; part two shows the struct walk hands
the composed prefix to the recursive struct unmarshal at every fuel
level. -/
theorem C3_amended_struct_field_recurses :
    (∀ (env : Env) (recu : GoType → String → Res GoValue) (ft : GoType) (key : String),
      ft.kind = .kstruct → ft.name ≠ "Time" →
      DefaultEnvMarshaler.unmarshalNonPtr env recu ft key =
        (match recu ft key with
        | .ok v => .ok v
        | .error (.goErr e) => .error (.goErr (.wrap e ("cannot unmarshal " ++ key ++ " to type " ++ ft.name)))
        | .error pa => .error pa)) ∧
    (∀ (f : Nat) (env : Env) (fieldName tag : String) (ft : GoType) (p : String),
      tag ≠ "" → ft.kind = .kstruct → ft.name ≠ "Time" →
      DefaultEnvMarshaler.unmarshalStructF (f + 1) env (.strukt (.cons fieldName tag ft .nil)) p =
        (match DefaultEnvMarshaler.unmarshalStructF f env ft (p ++ tag) with
        | .ok v => .ok (.structV (.cons v .nil))
        | .error (.goErr e) => .error (.goErr (.wrap
            (.wrap e ("cannot unmarshal " ++ (p ++ tag) ++ " to type " ++ ft.name))
            ("error unmarshaling field " ++ fieldName)))
        | .error pa => .error pa)) := by
  have part1 : ∀ (env : Env) (recu : GoType → String → Res GoValue) (ft : GoType) (key : String),
      ft.kind = .kstruct → ft.name ≠ "Time" →
      DefaultEnvMarshaler.unmarshalNonPtr env recu ft key =
        (match recu ft key with
        | .ok v => .ok v
        | .error (.goErr e) => .error (.goErr (.wrap e ("cannot unmarshal " ++ key ++ " to type " ++ ft.name)))
        | .error pa => .error pa) := by
    intro env recu ft key hks hname
    simp [DefaultEnvMarshaler.unmarshalNonPtr, hks, hname]
  refine ⟨part1, ?_⟩
  intro f env fieldName tag ft p htag hks hname
  have hnp : ft.kind ≠ .kptr := by rw [hks]; intro hc; cases hc
  simp only [DefaultEnvMarshaler.unmarshalStructF, GoType.kind, GoType.fieldsOf,
    DefaultEnvMarshaler.unmarshalFieldsWith, if_neg htag,
    DefaultEnvMarshaler.unmarshalField, if_neg hnp,
    part1 env _ ft (p ++ tag) hks hname, if_pos rfl]
  cases h : DefaultEnvMarshaler.unmarshalStructF f env ft (p ++ tag) with
  | ok v => simp
  | error fl => cases fl <;> simp

/-- C3 amended witness: a nested struct field routes to the recursive
struct unmarshal at the composed key. -/
theorem C3_amended_witness :
    DefaultEnvMarshaler.unmarshalNonPtr emptyEnv (fun _ _ => .ok (.structV .nil))
        (.strukt .nil) "PFX_" = .ok (.structV .nil) ∧
    DefaultEnvMarshaler.unmarshalStructF 4 emptyEnv
        (.strukt (.cons "A" "NESTED_" (.strukt (.cons "B" "OBJ1_B" (.uint .wN) .nil)) .nil)) "" =
      .error (.goErr (.wrap (.wrap (.wrap
        (.errorf "cannot retrieve any value from environment var NESTED_OBJ1_B")
        "error unmarshaling field B") "cannot unmarshal NESTED_ to type ")
        "error unmarshaling field A")) :=
  ⟨(C3_amended_struct_field_recurses.1 emptyEnv (fun _ _ => .ok (.structV .nil))
      (.strukt .nil) "PFX_" (by decide) (by decide)).trans (by decide),
   (C3_amended_struct_field_recurses.2 3 emptyEnv "A" "NESTED_"
      (.strukt (.cons "B" "OBJ1_B" (.uint .wN) .nil)) "" (by decide) (by decide) (by decide)).trans
      (by decide)⟩

/-- C1 counterexample: a target type implementing EnvUnmarshaler is
delegated the caller's object itself, so a method body that overwrites
the receiver and then fails makes Unmarshal return an error while the
caller's object no longer holds its prior value. -/
theorem C1_counterexample_hook_error_mutates :
    DefaultEnvMarshaler.Unmarshal [("BadCfg", mutatingFailingHook)] emptyEnv
        ⟨.ptr tBadCfg, .uintV .wN 7⟩ =
      ⟨.uintV .wN 99, .err (.errorf "BadCfg could not configure itself")⟩ ∧
    (GoValue.uintV .wN 99) ≠ (.uintV .wN 7) := by
  exact ⟨by decide, by decide⟩

/-- C1 amended: for every target whose resolved type does not implement
EnvUnmarshaler (the reflective path), whenever Unmarshal returns an
error the caller's object retains exactly its prior value; for
EnvUnmarshaler types the method receives the caller's object directly
and its own behaviour decides any mutation. -/
theorem C1_amended_error_leaves_target (m : Methods) (env : Env) (i : GoItf) (e : GoErr)
    (hno : DefaultEnvMarshaler.implementsUnmarshal m
        (if i.typ.kind = .kptr then i.typ.elemOf else i.typ) = false)
    (herr : (DefaultEnvMarshaler.Unmarshal m env i).outcome = .err e) :
    (DefaultEnvMarshaler.Unmarshal m env i).state = i.val := by
  simp only [DefaultEnvMarshaler.Unmarshal, hno, Bool.false_eq_true, if_false] at herr ⊢
  by_cases h1 : (if i.typ.kind = GoKind.kptr then i.typ.elemOf else i.typ).kind = GoKind.kstruct
  · rw [if_pos h1] at herr ⊢
    cases h2 : DefaultEnvMarshaler.unmarshalStruct env
        (if i.typ.kind = GoKind.kptr then i.typ.elemOf else i.typ) "" with
    | ok v =>
      rw [h2] at herr
      dsimp only at herr
      by_cases h3 : i.typ.kind = GoKind.kptr
      · rw [if_pos h3] at herr
        exact Outcome.noConfusion herr
      · rw [if_neg h3] at herr
        exact Outcome.noConfusion herr
    | error fl =>
      cases fl with
      | goErr e2 => rfl
      | panicked msg =>
        rw [h2] at herr
  · rw [if_neg h1] at herr ⊢

/-- C1 witness: a reflective-path target with a missing key returns the
missing-key error and leaves the target's prior value in place. -/
theorem C1_witness :
    DefaultEnvMarshaler.implementsUnmarshal []
        (if (GoItf.mk (.ptr tOneField) (.structV (.cons (.uintV .wN 5) .nil))).typ.kind = .kptr
         then (GoItf.mk (.ptr tOneField) (.structV (.cons (.uintV .wN 5) .nil))).typ.elemOf
         else (GoItf.mk (.ptr tOneField) (.structV (.cons (.uintV .wN 5) .nil))).typ) = false ∧
    (DefaultEnvMarshaler.Unmarshal [] emptyEnv
        ⟨.ptr tOneField, .structV (.cons (.uintV .wN 5) .nil)⟩).outcome =
      .err (.wrap (.errorf "cannot retrieve any value from environment var X")
        "error unmarshaling field X") ∧
    (DefaultEnvMarshaler.Unmarshal [] emptyEnv
        ⟨.ptr tOneField, .structV (.cons (.uintV .wN 5) .nil)⟩).state =
      .structV (.cons (.uintV .wN 5) .nil) :=
  ⟨by decide, by decide,
    C1_amended_error_leaves_target [] emptyEnv
      ⟨.ptr tOneField, .structV (.cons (.uintV .wN 5) .nil)⟩
      (.wrap (.errorf "cannot retrieve any value from environment var X")
        "error unmarshaling field X") (by decide) (by decide)⟩

/-- C7: a tagged field of non-struct, non-pointer kind whose composed
key is absent from the environment makes the whole struct unmarshal fail
with the missing-key error naming that key (wrapped with the field
name); there is no optional-field path. -/
theorem C7_missing_key_fails (env : Env) (p fieldName tag : String) (ft : GoType)
    (htag : tag ≠ "") (hk1 : ft.kind ≠ .kstruct) (hk2 : ft.kind ≠ .kptr)
    (hmiss : env (p ++ tag) = none) :
    DefaultEnvMarshaler.unmarshalStruct env (.strukt (.cons fieldName tag ft .nil)) p =
      .error (.goErr (.wrap
        (.errorf ("cannot retrieve any value from environment var " ++ (p ++ tag)))
        ("error unmarshaling field " ++ fieldName))) := by
  by_cases htime : ft.name = "Time" <;>
    simp [DefaultEnvMarshaler.unmarshalStruct, GoType.sizeT, GoFields.sizeFs,
      DefaultEnvMarshaler.unmarshalStructF, GoType.kind, GoType.fieldsOf,
      DefaultEnvMarshaler.unmarshalFieldsWith, htag,
      DefaultEnvMarshaler.unmarshalField, hk2,
      DefaultEnvMarshaler.unmarshalNonPtr, htime, hk1,
      DefaultEnvMarshaler.unmarshalType, hmiss]

/-- C7 witness: a struct with one tagged uint field and an empty
environment fails with the missing-key error naming the key. -/
theorem C7_witness :
    DefaultEnvMarshaler.unmarshalStruct emptyEnv
        (.strukt (.cons "X" "X" (.uint .wN) .nil)) "" =
      .error (.goErr (.wrap
        (.errorf ("cannot retrieve any value from environment var " ++ ("" ++ "X")))
        ("error unmarshaling field " ++ "X"))) :=
  C7_missing_key_fails emptyEnv "" "X" "X" (.uint .wN)
    (by decide) (by decide) (by decide) rfl

/-- C6: the lookup key of a nested tagged field is the pure string
concatenation prefix ++ outer tag ++ inner tag, with no separator
inserted: for every prefix and non-empty tags, unmarshalling succeeds
exactly through that key (first part), and with an empty environment the
failure names exactly that key (second part). -/
theorem C6_prefix_concatenation (p tagA tagB : String) (hA : tagA ≠ "") (hB : tagB ≠ "") :
    DefaultEnvMarshaler.unmarshalStruct
        (fun k => if k = p ++ tagA ++ tagB then some "7" else none)
        (.strukt (.cons "A" tagA (.strukt (.cons "B" tagB (.uint .wN) .nil)) .nil)) p =
      .ok (.structV (.cons (.structV (.cons (.uintV .wN 7) .nil)) .nil)) ∧
    DefaultEnvMarshaler.unmarshalStruct emptyEnv
        (.strukt (.cons "A" tagA (.strukt (.cons "B" tagB (.uint .wN) .nil)) .nil)) p =
      .error (.goErr (.wrap (.wrap (.wrap
        (.errorf ("cannot retrieve any value from environment var " ++ (p ++ tagA ++ tagB)))
        ("error unmarshaling field B"))
        ("cannot unmarshal " ++ (p ++ tagA) ++ " to type "))
        ("error unmarshaling field A"))) := by
  have h7 : DefaultParser.ParseType "7" (.uint .wN) = .ok (.uintV .wN 7) := by decide
  constructor <;>
    simp [DefaultEnvMarshaler.unmarshalStruct, GoType.sizeT, GoFields.sizeFs,
      DefaultEnvMarshaler.unmarshalStructF, GoType.kind, GoType.fieldsOf, GoType.name,
      DefaultEnvMarshaler.unmarshalFieldsWith, hA, hB,
      DefaultEnvMarshaler.unmarshalField,
      DefaultEnvMarshaler.unmarshalNonPtr,
      DefaultEnvMarshaler.unmarshalType, emptyEnv, h7]

/-- C6 witness: prefix "" with outer tag "NESTED_" and inner tag
"OBJ1_B" resolves the inner field through key "NESTED_OBJ1_B". -/
theorem C6_witness :
    DefaultEnvMarshaler.unmarshalStruct
        (fun k => if k = "" ++ "NESTED_" ++ "OBJ1_B" then some "7" else none)
        (.strukt (.cons "A" "NESTED_" (.strukt (.cons "B" "OBJ1_B" (.uint .wN) .nil)) .nil)) "" =
      .ok (.structV (.cons (.structV (.cons (.uintV .wN 7) .nil)) .nil)) :=
  (C6_prefix_concatenation "" "NESTED_" "OBJ1_B" (by decide) (by decide)).1

/-- Helper: a digit-run check fails on any list containing a space. -/
theorem all_isDigit_false_of_space (cs : List Char) (h : ' ' ∈ cs) :
    cs.all (·.isDigit) = false := by
  refine Bool.eq_false_iff.mpr (fun hall => ?_)
  have h2 := List.all_eq_true.mp hall ' ' h
  exact absurd h2 (by decide)

/-- Helper: strconv.ParseUint rejects any input containing a space. -/
theorem goParseUint_none_of_space (cs : List Char) (h : ' ' ∈ cs) :
    goParseUint cs = none := by
  cases cs with
  | nil => cases h
  | cons c rest =>
    have hall := all_isDigit_false_of_space (c :: rest) h
    simp [goParseUint, hall]

/-- Helper: strconv.ParseInt rejects any input containing a space. -/
theorem goParseInt_none_of_space (cs : List Char) (h : ' ' ∈ cs) :
    goParseInt cs = none := by
  cases cs with
  | nil => cases h
  | cons c rest =>
    by_cases hsign : c = '+' ∨ c = '-'
    · have hrest : ' ' ∈ rest := by
        rcases List.mem_cons.mp h with h1 | h1
        · exfalso
          rcases hsign with h2 | h2 <;> rw [h2] at h1 <;> exact absurd h1 (by decide)
        · exact h1
      cases rest with
      | nil => cases hrest
      | cons d ds =>
        have hall := all_isDigit_false_of_space (d :: ds) hrest
        simp [goParseInt, hsign, hall]
    · have hall := all_isDigit_false_of_space (c :: rest) h
      simp [goParseInt, hsign, hall]

/-- Helper: strconv.ParseBool rejects the lowercasing of any input
containing a space. -/
theorem goParseBool_none_of_space (cs : List Char) (h : ' ' ∈ cs) :
    goParseBool (goToLower ⟨cs⟩) = none := by
  have hmem : ' ' ∈ cs.map Char.toLower := List.mem_map.mpr ⟨' ', h, by decide⟩
  have hne : ∀ lit : String, ' ' ∉ lit.data → (⟨cs.map Char.toLower⟩ : String) ≠ lit := by
    intro lit hnot heq
    apply hnot
    rw [← heq]
    exact hmem
  have hT : ¬((⟨cs.map Char.toLower⟩ : String) = "1" ∨ (⟨cs.map Char.toLower⟩ : String) = "t" ∨
      (⟨cs.map Char.toLower⟩ : String) = "T" ∨ (⟨cs.map Char.toLower⟩ : String) = "TRUE" ∨
      (⟨cs.map Char.toLower⟩ : String) = "true" ∨ (⟨cs.map Char.toLower⟩ : String) = "True") := by
    rintro (h1 | h1 | h1 | h1 | h1 | h1) <;> exact hne _ (by decide) h1
  have hF : ¬((⟨cs.map Char.toLower⟩ : String) = "0" ∨ (⟨cs.map Char.toLower⟩ : String) = "f" ∨
      (⟨cs.map Char.toLower⟩ : String) = "F" ∨ (⟨cs.map Char.toLower⟩ : String) = "FALSE" ∨
      (⟨cs.map Char.toLower⟩ : String) = "false" ∨ (⟨cs.map Char.toLower⟩ : String) = "False") := by
    rintro (h1 | h1 | h1 | h1 | h1 | h1) <;> exact hne _ (by decide) h1
  show goParseBool ⟨cs.map Char.toLower⟩ = none
  simp only [goParseBool, if_neg hT, if_neg hF]

/-- Helper: strconv.ParseFloat rejects any input starting with a space.
-/
theorem goParseFloat_none_of_leading_space (cs : List Char) :
    goParseFloat (' ' :: cs) = none := by
  have hlow : Char.toLower ' ' = ' ' := by decide
  cases cs with
  | nil => decide
  | cons b rest =>
    simp [goParseFloat, stripSign, parseDecFloat, hlow]

/-- C10: numeric and boolean targets receive the input string untrimmed,
so any input containing a space (in particular leading or trailing
spaces) fails with a format error for unsigned, signed and boolean
kinds, and a leading space fails for float kinds; only string targets,
and sequence elements before element parsing, are trimmed. -/
theorem C10_no_whitespace_trimming :
    (∀ (cs : List Char) (w : IntW), ' ' ∈ cs →
      DefaultParser.ParseType ⟨cs⟩ (.uint w) =
        .error (.goErr (.wrap
          (.errorf ("strconv.ParseUint: parsing \x22" ++ (⟨cs⟩ : String) ++ "\x22: invalid syntax"))
          ("Cannot convert " ++ (⟨cs⟩ : String) ++ " to " ++ (GoType.uint w).name)))) ∧
    (∀ (cs : List Char) (w : IntW), ' ' ∈ cs →
      DefaultParser.ParseType ⟨cs⟩ (.int w) =
        .error (.goErr (.wrap
          (.errorf ("strconv.ParseInt: parsing \x22" ++ (⟨cs⟩ : String) ++ "\x22: invalid syntax"))
          ("Cannot convert " ++ (⟨cs⟩ : String) ++ " to " ++ (GoType.int w).name)))) ∧
    (∀ (cs : List Char), ' ' ∈ cs →
      DefaultParser.ParseType ⟨cs⟩ .bool =
        .error (.goErr (.wrap
          (.errorf ("strconv.ParseBool: parsing \x22" ++ goToLower ⟨cs⟩ ++ "\x22: invalid syntax"))
          ("Cannot convert " ++ (⟨cs⟩ : String) ++ " to a boolean value.")))) ∧
    (∀ (cs : List Char),
      DefaultParser.ParseType ⟨' ' :: cs⟩ .float64 =
        .error (.goErr (.wrap
          (.errorf ("strconv.ParseFloat: parsing \x22" ++ (⟨' ' :: cs⟩ : String) ++ "\x22: invalid syntax"))
          ("Cannot convert " ++ (⟨' ' :: cs⟩ : String) ++ " to " ++ "float64")))) ∧
    (∀ (cs : List Char),
      DefaultParser.ParseType ⟨' ' :: cs⟩ .float32 =
        .error (.goErr (.wrap
          (.errorf ("strconv.ParseFloat: parsing \x22" ++ (⟨' ' :: cs⟩ : String) ++ "\x22: invalid syntax"))
          ("Cannot convert " ++ (⟨' ' :: cs⟩ : String) ++ " to " ++ "float32")))) ∧
    DefaultParser.ParseType "7 " .float64 =
      .error (.goErr (.wrap (.errorf "strconv.ParseFloat: parsing \x227 \x22: invalid syntax")
        "Cannot convert 7  to float64")) ∧
    DefaultParser.ParseType " 7 " .string = .ok (.strV "7") ∧
    DefaultParser.ParseType " 7 , 8" (.slice (.uint .wN)) =
      .ok (.sliceV (.cons (.uintV .wN 7) (.cons (.uintV .wN 8) .nil))) := by
  refine ⟨?_, ?_, ?_, ?_, ?_, by decide, by decide, by decide⟩
  · intro cs w h
    simp [DefaultParser.ParseType, parseUintCase, goParseUint_none_of_space cs h]
  · intro cs w h
    simp [DefaultParser.ParseType, parseIntCase, goParseInt_none_of_space cs h]
  · intro cs h
    have hb := goParseBool_none_of_space cs h
    simp [DefaultParser.ParseType, parseBoolCase, hb]
  · intro cs
    simp [DefaultParser.ParseType, parseFloatCase, goParseFloat_none_of_leading_space cs]
  · intro cs
    simp [DefaultParser.ParseType, parseFloatCase, goParseFloat_none_of_leading_space cs]

/-- C10 witness: " 7" fails for int, uint, bool and float targets while
" 7 " trims for a string target. -/
theorem C10_witness :
    (' ' ∈ " 7".data ∧
      DefaultParser.ParseType " 7" (.uint .wN) =
        .error (.goErr (.wrap (.errorf "strconv.ParseUint: parsing \x22 7\x22: invalid syntax")
          "Cannot convert  7 to uint"))) ∧
    (DefaultParser.ParseType " 7" (.int .wN) =
        .error (.goErr (.wrap (.errorf "strconv.ParseInt: parsing \x22 7\x22: invalid syntax")
          "Cannot convert  7 to int"))) ∧
    (DefaultParser.ParseType " true" .bool =
        .error (.goErr (.wrap (.errorf "strconv.ParseBool: parsing \x22 true\x22: invalid syntax")
          "Cannot convert  true to a boolean value."))) ∧
    (DefaultParser.ParseType " 7" .float64 =
        .error (.goErr (.wrap (.errorf "strconv.ParseFloat: parsing \x22 7\x22: invalid syntax")
          "Cannot convert  7 to float64"))) :=
  ⟨⟨by decide, (C10_no_whitespace_trimming.1 " 7".data .wN (by decide)).trans (by decide)⟩,
    (C10_no_whitespace_trimming.2.1 " 7".data .wN (by decide)).trans (by decide),
    ((C10_no_whitespace_trimming.2.2.1 " true".data (by decide)).trans (by decide)),
    ((C10_no_whitespace_trimming.2.2.2.1 "7".data).trans (by decide))⟩

end GoEnv
